import Mathlib

/-!
Verification development for the `vecdb` vector search engine.

The definitions below are a shallow embedding of the Python sources:
  * `src/shared/models/schemas.py`          — entity model (Chunk/Document/Library)
  * `src/server/app/database/index/vector_index.py` — exact cosine index
  * `src/server/app/database/index/lsh_index.py`    — random hyperplane LSH index
  * `src/server/app/database/db.py`         — the store (`VectorDatabase`)
  * `src/server/app/api/routers/chunk.py`   — the search endpoint validation

Modelling conventions:
  * Machine floats are modelled as real numbers.  The only NaN source
    exercised by any property below is `x / 0.0` inside the cosine
    computations, so scalar search distances live in `WithBot ℝ`, with `⊥`
    standing for NaN (`float('nan')`): `1 - nan = nan` and `nan == nan`
    is false, which the definitions reproduce.
  * `np.dot` of two 1-D arrays is modelled by a truncating `zipWith`
    product-sum; the `ValueError` numpy raises on a shape mismatch is not
    modelled, so theorems about searches carry equal-length hypotheses
    where the lengths are not forced by construction.
  * Python's `list.sort` on `(key, chunk)` tuples compares the `Chunk`
    objects whenever two keys are equal (`==`); `Chunk` (a pydantic model)
    defines no ordering, so the sort raises `TypeError` as soon as two
    equal non-NaN keys exist in the list (two NaN keys are never `==`).
    A search that raises is modelled as `none`; a normal return as
    `some results`.  When no two keys are equal the sort's output is the
    unique sorted permutation, modelled with `List.insertionSort`.
  * `dict` values relevant to the claims are strings; a dict is modelled
    as `String → Option String` with Python's right-biased `{**a, **b}`
    merge.  `metadata_filter` is iterated, so it stays an association list.
  * Entity ids (`id` fields) and timestamps come from `time.time()` /
    `datetime.now()` / `random`; they are threaded through the operations
    as explicit arguments (`new_id`, `now : Nat`).
  * The random hyperplanes of an `LSHIndex` are drawn by a seeded RNG at
    construction (`np.random.seed(42)` runs at every construction, so all
    LSH indexes of a store share the same planes).  The drawn planes are
    carried as explicit store data (`lsh_planes`).
-/

namespace VecDB

/-- Metadata dictionaries: string keys to string values (the values the
claims inspect are strings). -/
def Dict : Type := String → Option String

def dictEmpty : Dict := fun _ => none

/-- `d[k] = v` (Python item assignment). -/
def dictSet (d : Dict) (k v : String) : Dict :=
  fun k' => if k' = k then some v else d k'

/-- Python `{**base, **extra}` / `base.update(extra)`: keys of `extra` win. -/
def dictUnion (base extra : Dict) : Dict :=
  fun k => match extra k with
    | some v => some v
    | none => base k

/-- `k in d`. -/
def dictHas (d : Dict) (k : String) : Prop := (d k).isSome

/-- Embedding vectors (`List[float]`). -/
abbrev Vec := List ℝ

/-- `np.dot` on 1-D arrays of equal length; truncating on the (unmodelled)
shape-mismatch error case. -/
def dotv (v w : Vec) : ℝ := (List.zipWith (fun a b => a * b) v w).sum

/-- `np.linalg.norm`. -/
noncomputable def normv (v : Vec) : ℝ := Real.sqrt (dotv v v)

/-- A Python float that may be NaN: `⊥` is NaN. -/
abbrev PFloat := WithBot ℝ

/-- `1 - x`, propagating NaN. -/
def oneMinus (x : PFloat) : PFloat := WithBot.map (fun r => 1 - r) x

/-- Cosine similarity `np.dot(q/‖q‖, v/‖v‖)`: NaN whenever either norm is
zero (0/0 in every component of the zero vector). -/
noncomputable def cos_sim (q v : Vec) : PFloat :=
  if normv q = 0 ∨ normv v = 0 then ⊥
  else ((dotv q v / (normv q * normv v) : ℝ) : PFloat)

/-- `shared/models/schemas.py: Chunk` (envelope fields from `LoggedModel`). -/
structure Chunk where
  id : String
  metadata : Dict
  created_at : Nat
  updated_at : Nat
  text : String
  embedding : Vec

/-- `shared/models/schemas.py: Document`. -/
structure Document where
  id : String
  metadata : Dict
  created_at : Nat
  updated_at : Nat
  document_title : String
  chunks : List Chunk

/-- `shared/models/schemas.py: Library`. -/
structure Library where
  id : String
  metadata : Dict
  created_at : Nat
  updated_at : Nat
  library_id : String
  documents : List Document
  is_indexed : Bool

/-! ### Indexes

`VectorIndex` state is its chunk list; `LSHIndex` state is its hyperplane
tables (fixed at construction) plus one bucket table per plane table.
Bucket keys are the sign bit-strings (`List Bool`). -/

/-- One LSH hash table: insertion-ordered buckets keyed by bit-string. -/
abbrev HashTable := List (List Bool × List Chunk)

/-- The per-library index: either `VectorIndex` or `LSHIndex`
(`db.py` keeps exactly one in `_indices[library_id]`). -/
inductive Index where
  | vector (chunks : List Chunk)
  | lsh (planes : List (List Vec)) (tables : List HashTable)

/-- `LSHIndex._hash_vector`: regularized normalization with ε = 1e-10,
then the sign pattern of the projections (`proj > 0`). -/
noncomputable def hash_vector (v : Vec) (planes : List Vec) : List Bool :=
  let vn := v.map (fun x => x / (normv v + 1/10^10))
  planes.map (fun p => decide (dotv p vn > 0))

/-- Bucket lookup: `table[key]` if present, else no candidates. -/
def bucketGet (t : HashTable) (key : List Bool) : List Chunk :=
  match t.find? (fun b => b.1 = key) with
  | some b => b.2
  | none => []

/-- Append `c` to the bucket at `key`, creating the bucket if absent
(`LSHIndex.insert` body for one table). -/
def bucketAppend (t : HashTable) (key : List Bool) (c : Chunk) : HashTable :=
  match t with
  | [] => [(key, [c])]
  | b :: rest =>
      if b.1 = key then (b.1, b.2 ++ [c]) :: rest
      else b :: bucketAppend rest key c

/-- `insert(chunk)` on either index. -/
noncomputable def insertIdx (idx : Index) (c : Chunk) : Index :=
  match idx with
  | Index.vector cs => Index.vector (cs ++ [c])
  | Index.lsh planes tables =>
      Index.lsh planes
        (List.zipWith (fun pl t => bucketAppend t (hash_vector c.embedding pl) c) planes tables)

/-- `clear()` on either index: the LSH planes survive, the buckets do not. -/
def clearIdx (idx : Index) : Index :=
  match idx with
  | Index.vector _ => Index.vector []
  | Index.lsh planes _ => Index.lsh planes (planes.map (fun _ => []))

/-! ### The Python `list.sort` on `(key, chunk)` pairs -/

/-- Two sort keys that make Python's tuple comparison fall through to the
unorderable `Chunk` objects: equal and not NaN (NaN is never `==` NaN). -/
def keyClash (a b : PFloat) : Prop := a = b ∧ a ≠ ⊥

/-- `list.sort` raises `TypeError` iff some pair of entries clashes. -/
def sortCrashes (keys : List PFloat) : Prop :=
  ¬ keys.Pairwise (fun a b => ¬ keyClash a b)

/-- Ascending comparison on sort keys (NaN modelled below every real;
no theorem below depends on the relative order of NaN entries). -/
def keyLe (a b : PFloat × Chunk) : Prop := a.1 ≤ b.1

/-- Descending comparison on sort keys (for `sort(reverse=True)`). -/
def keyGe (a b : PFloat × Chunk) : Prop := b.1 ≤ a.1

noncomputable instance : DecidableRel keyLe :=
  fun a b => inferInstanceAs (Decidable (a.1 ≤ b.1))

noncomputable instance : DecidableRel keyGe :=
  fun a b => inferInstanceAs (Decidable (b.1 ≤ a.1))

instance : IsTotal (PFloat × Chunk) keyLe := ⟨fun a b => le_total a.1 b.1⟩

instance : IsTrans (PFloat × Chunk) keyLe := ⟨fun _ _ _ h h' => le_trans h h'⟩

instance : IsTotal (PFloat × Chunk) keyGe := ⟨fun a b => le_total b.1 a.1⟩

instance : IsTrans (PFloat × Chunk) keyGe := ⟨fun _ _ _ h h' => le_trans h' h⟩

/-! ### `VectorIndex.search` and `LSHIndex.search` -/

open Classical in
/-- `vector_index.py: VectorIndex.search`: empty-store early return, cosine
similarity against every chunk, `sort(reverse=True)` on `(sim, chunk)`
pairs (a `TypeError` on tied similarities is `none`), top `k`, then
`(1 - sim, chunk)`. -/
noncomputable def vector_search (chunks : List Chunk) (query : Vec) (k : Nat) :
    Option (List (PFloat × Chunk)) :=
  if chunks.isEmpty then some [] else
  if sortCrashes ((chunks.map (fun c => (cos_sim query c.embedding, c))).map Prod.fst) then none
  else some
    ((((chunks.map (fun c => (cos_sim query c.embedding, c))).insertionSort keyGe).take k).map
      (fun p => (oneMinus p.1, p.2)))

/-- `LSHIndex.search` candidate collection: matching bucket of each table in
table order, deduplicated by chunk id keeping the first occurrence
(`candidates_dict[chunk.id] = chunk` on an insertion-ordered dict). -/
noncomputable def lsh_candidates (planes : List (List Vec)) (tables : List HashTable)
    (query : Vec) : List Chunk :=
  (List.zipWith (fun pl t => bucketGet t (hash_vector query pl)) planes tables).flatten.foldl
    (fun acc c => if acc.any (fun c2 => c2.id = c.id) then acc else acc ++ [c]) []

open Classical in
/-- `lsh_index.py: LSHIndex.search`: bucket candidates, early return when
there are none, exact cosine distances `1 - np.dot(q/‖q‖, c/‖c‖)`,
`sort()` on `(distance, chunk)` pairs (`TypeError` on ties is `none`),
top `k`. -/
noncomputable def lsh_search (planes : List (List Vec)) (tables : List HashTable)
    (query : Vec) (k : Nat) : Option (List (PFloat × Chunk)) :=
  if (lsh_candidates planes tables query).isEmpty then some [] else
  if sortCrashes (((lsh_candidates planes tables query).map
      (fun c => (oneMinus (cos_sim query c.embedding), c))).map Prod.fst) then none
  else some ((((lsh_candidates planes tables query).map
      (fun c => (oneMinus (cos_sim query c.embedding), c))).insertionSort keyLe).take k)

/-- `search(query, k)` dispatched on the index kind. -/
noncomputable def searchIdx (idx : Index) (query : Vec) (k : Nat) :
    Option (List (PFloat × Chunk)) :=
  match idx with
  | Index.vector cs => vector_search cs query k
  | Index.lsh planes tables => lsh_search planes tables query k

/-! ### Request shapes (`shared/models/api_schemas.py`) -/

structure LibraryCreate where
  library_id : String
  metadata : Dict

structure ChunkCreate where
  library_id : String
  document_id : Option String
  text : String
  embedding : Vec
  metadata : Dict

structure DocumentCreate where
  library_id : String
  document_title : String
  chunks : List ChunkCreate
  metadata : Dict

structure SearchQuery where
  library_id : String
  embedding : Vec
  k : Nat
  metadata_filter : List (String × String)

/-! ### The store (`db.py: VectorDatabase`)

`_libraries` and `_indices` are two dicts maintained over exactly the same
keys (every code path inserts into and deletes from both together), so the
model stores one map to pairs.  The available index classes and the
hyperplanes any freshly constructed LSH index draws (always from seed 42)
are store-level data. -/

inductive IndexClass where
  | lsh
  | vector

structure LibEntry where
  library : Library
  index : Index

structure Store where
  libs : String → Option LibEntry
  embedding_dimension : Nat
  index_class : IndexClass
  lsh_planes : List (List Vec)
  needs_save : Bool

/-- Construct `index_class(dimension=...)`: an empty index of the configured
kind (a fresh `LSHIndex` redraws the same seeded planes). -/
def freshIndex (cls : IndexClass) (planes : List (List Vec)) : Index :=
  match cls with
  | IndexClass.lsh => Index.lsh planes (planes.map (fun _ => []))
  | IndexClass.vector => Index.vector []

def storeSet (m : String → Option LibEntry) (k : String) (v : LibEntry) :
    String → Option LibEntry :=
  fun k' => if k' = k then some v else m k'

/-- `VectorDatabase.create_library`: unconditionally overwrites both maps at
`library_id` and marks the store dirty. -/
def create_library (s : Store) (lc : LibraryCreate) (new_id : String) (now : Nat) :
    Library × Store :=
  let lib : Library :=
    { id := new_id, metadata := lc.metadata, created_at := now, updated_at := now
      library_id := lc.library_id, documents := [], is_indexed := false }
  (lib,
   { s with
       libs := storeSet s.libs lc.library_id ⟨lib, freshIndex s.index_class s.lsh_planes⟩
       needs_save := true })

/-- `VectorDatabase.get_library`. -/
def get_library (s : Store) (library_id : String) : Option Library :=
  (s.libs library_id).map LibEntry.library

/-- `VectorDatabase.get_document`: first document of the library with the
given id. -/
def get_document (s : Store) (library_id document_id : String) : Option Document :=
  match s.libs library_id with
  | none => none
  | some e => e.library.documents.find? (fun d => d.id = document_id)

/-- One step of `add_chunk`'s mutation of the found document: append the
materialized chunk, stamp `updated_at`, and back-fill the document's
`document_title` metadata from the chunk when the document lacks it. -/
noncomputable def addChunkToDocs (docs : List Document) (document_id : String)
    (mk : Document → Chunk) (now : Nat) : Option (Chunk × List Document) :=
  match docs with
  | [] => none
  | d :: rest =>
      if d.id = document_id then
        let ch := mk d
        let meta :=
          if (ch.metadata "document_title").isSome ∧ ¬ (d.metadata "document_title").isSome then
            dictSet d.metadata "document_title" ((ch.metadata "document_title").getD "")
          else d.metadata
        some (ch, { d with chunks := d.chunks ++ [ch], updated_at := now, metadata := meta } :: rest)
      else
        match addChunkToDocs rest document_id mk now with
        | none => none
        | some (ch, rest') => some (ch, d :: rest')

/-- The chunk `add_chunk` materializes for document `d`:
`{"document_id": d.id, "document_title": d.document_title,
**chunk_create.metadata}` — the caller's entries are spread last. -/
def materializeChunk (cc : ChunkCreate) (new_id : String) (now : Nat)
    (d : Document) : Chunk :=
  { id := new_id
    metadata :=
      dictUnion
        (dictSet (dictSet dictEmpty "document_id" d.id) "document_title" d.document_title)
        cc.metadata
    created_at := now, updated_at := now
    text := cc.text, embedding := cc.embedding }

/-- `VectorDatabase.add_chunk`.  Note the source guards both the index
insert AND `_mark_for_save()` behind `library.is_indexed`. -/
noncomputable def add_chunk (s : Store) (cc : ChunkCreate) (new_id : String) (now : Nat) :
    Option Chunk × Store :=
  match cc.document_id with
  | none => (none, s)
  | some did =>
      match s.libs cc.library_id with
      | none => (none, s)
      | some e =>
          match addChunkToDocs e.library.documents did (materializeChunk cc new_id now) now with
          | none => (none, s)
          | some (ch, docs') =>
              if e.library.is_indexed then
                (some ch,
                 { s with
                     libs := storeSet s.libs cc.library_id
                       ⟨{ e.library with documents := docs' }, insertIdx e.index ch⟩
                     needs_save := true })
              else
                (some ch,
                 { s with
                     libs := storeSet s.libs cc.library_id
                       ⟨{ e.library with documents := docs' }, e.index⟩ })

/-- `add_document`'s resolution of `document_title` against the request
metadata (an empty string title is falsy in Python). -/
def resolveTitle (dc : DocumentCreate) : String × Dict :=
  if dc.document_title ≠ "" then
    (dc.document_title, dictSet dc.metadata "document_title" dc.document_title)
  else
    match dc.metadata "document_title" with
    | some t => (t, dc.metadata)
    | none => ("Untitled", dictSet dc.metadata "document_title" "Untitled")

/-- `VectorDatabase.add_document`: append an initially chunkless document,
stamp the library, run `add_chunk` for each initial chunk, mark dirty.
The Python code returns the live (mutated) document object, which is the
document as found in the final store. -/
noncomputable def add_document (s : Store) (dc : DocumentCreate) (doc_id : String)
    (chunk_ids : List String) (now : Nat) : Option Document × Store :=
  match s.libs dc.library_id with
  | none => (none, s)
  | some e =>
      let tm := resolveTitle dc
      let doc : Document :=
        { id := doc_id, metadata := tm.2, created_at := now, updated_at := now
          document_title := tm.1, chunks := [] }
      let s1 : Store :=
        { s with
            libs := storeSet s.libs dc.library_id
              ⟨{ e.library with documents := e.library.documents ++ [doc], updated_at := now },
               e.index⟩ }
      let s2 :=
        (dc.chunks.zip chunk_ids).foldl
          (fun st p =>
            (add_chunk st
              { library_id := dc.library_id, document_id := some doc_id
                text := p.1.text, embedding := p.1.embedding, metadata := p.1.metadata }
              p.2 now).2)
          s1
      let s3 : Store := { s2 with needs_save := true }
      (get_document s3 dc.library_id doc_id, s3)

/-- Drop the first document with the given id; `none` when absent. -/
def removeFirstDoc (docs : List Document) (document_id : String) :
    Option (List Document) :=
  match docs with
  | [] => none
  | d :: rest =>
      if d.id = document_id then some rest
      else (removeFirstDoc rest document_id).map (fun rest' => d :: rest')

/-- `VectorDatabase.delete_document`: pops the document and stamps the
library, but performs no index maintenance at all. -/
def delete_document (s : Store) (library_id document_id : String) (now : Nat) :
    Bool × Store :=
  match s.libs library_id with
  | none => (false, s)
  | some e =>
      match removeFirstDoc e.library.documents document_id with
      | none => (false, s)
      | some docs' =>
          (true,
           { s with
               libs := storeSet s.libs library_id
                 ⟨{ e.library with documents := docs', updated_at := now }, e.index⟩
               needs_save := true })

/-- The chunks reachable via `library.documents[*].chunks[*]`, in document
then chunk order. -/
def treeChunks (lib : Library) : List Chunk :=
  (lib.documents.map Document.chunks).flatten

/-- Insert chunks one by one (the nested `for` loops of `index_library`). -/
noncomputable def insertAll (idx : Index) (cs : List Chunk) : Index :=
  cs.foldl insertIdx idx

/-- `VectorDatabase.index_library`: clear, re-insert every reachable chunk
in document/chunk order, set `is_indexed`, stamp, mark dirty. -/
noncomputable def index_library (s : Store) (library_id : String) (now : Nat) :
    Bool × Store :=
  match s.libs library_id with
  | none => (false, s)
  | some e =>
      (true,
       { s with
           libs := storeSet s.libs library_id
             ⟨{ e.library with is_indexed := true, updated_at := now },
              insertAll (clearIdx e.index) (treeChunks e.library)⟩
           needs_save := true })

/-- All chunks a search over the index could ever return (the stored list
for the exact index; the id-deduplicated union of all buckets for LSH). -/
def indexChunkList (idx : Index) : List Chunk :=
  match idx with
  | Index.vector cs => cs
  | Index.lsh _ tables =>
      (tables.map (fun t => (t.map Prod.snd).flatten)).flatten.foldl
        (fun acc c => if acc.any (fun c2 => c2.id = c.id) then acc else acc ++ [c]) []

/-- `VectorDatabase.search`: no embedding validation of any kind; missing or
unindexed library yields `[]`; otherwise delegate to the index and apply
the metadata filter (equality on each filter entry) after k-NN selection.
The index sort's `TypeError` propagates (`none`). -/
noncomputable def db_search (s : Store) (q : SearchQuery) :
    Option (List (PFloat × Chunk)) :=
  match s.libs q.library_id with
  | none => some []
  | some e =>
      if e.library.is_indexed then
        (searchIdx e.index q.embedding q.k).map (fun res =>
          if q.metadata_filter.isEmpty then res
          else res.filter (fun p => q.metadata_filter.all (fun kv => p.2.metadata kv.1 = some kv.2)))
      else some []

/-- Modelled from the spec: `switch_index_algorithm(id, class)` is invoked
on the store singleton (`app/database/singleton.py`, a repository module
absent from `src/`) by `routers/library.py`, and no method of that name is
defined in `src/server/app/database/db.py`.  Spec §4.4: returns a boolean,
`false` when the library is not found, and otherwise "new empty index
replaces old; caller must `index_library` to repopulate"; as a mutating
operation it stamps the affected entity and marks the store dirty. -/
def switch_index_algorithm (s : Store) (library_id : String) (cls : IndexClass)
    (now : Nat) : Bool × Store :=
  match s.libs library_id with
  | none => (false, s)
  | some e =>
      (true,
       { s with
           libs := storeSet s.libs library_id
             ⟨{ e.library with updated_at := now }, freshIndex cls s.lsh_planes⟩
           needs_save := true })

/-- `routers/chunk.py: search` endpoint: rejects a query whose embedding
length differs from the configured dimension (and, in the source, one with
non-finite entries — unrepresentable over ℝ) before calling `db.search`;
the surrounding catch-all handler turns any raised error, including its
own `HTTPException`s and the sort's `TypeError`, into a logged empty
(`None`) response.  A failed request is `none`. -/
noncomputable def api_search (s : Store) (q : SearchQuery) :
    Option (List (PFloat × Chunk)) :=
  if q.embedding.length ≠ s.embedding_dimension then none
  else db_search s q

/-- `VectorDatabase.get_chunk_count`: 0 for a missing library, else the
total number of chunks over its documents. -/
def get_chunk_count (s : Store) (library_id : String) : Nat :=
  match s.libs library_id with
  | none => 0
  | some e => (e.library.documents.map (fun d => d.chunks.length)).sum

/-! ### Shared fixtures for concrete witnesses and counterexamples -/

def exChunk : Chunk :=
  { id := "c1", metadata := dictEmpty, created_at := 0, updated_at := 0
    text := "t", embedding := [1, 0] }

def exDoc : Document :=
  { id := "d1", metadata := dictSet dictEmpty "document_title" "T"
    created_at := 0, updated_at := 0, document_title := "T", chunks := [exChunk] }

def exLib : Library :=
  { id := "x1", metadata := dictEmpty, created_at := 0, updated_at := 0
    library_id := "L", documents := [exDoc], is_indexed := false }

def exStore : Store :=
  { libs := storeSet (fun _ => none) "L" ⟨exLib, Index.vector []⟩
    embedding_dimension := 2, index_class := IndexClass.vector
    lsh_planes := [], needs_save := false }

/-! ### General lemmas -/

lemma indexChunkList_freshIndex (cls : IndexClass) (planes : List (List Vec)) :
    indexChunkList (freshIndex cls planes) = [] := by
  cases cls with
  | vector => rfl
  | lsh =>
      simp only [freshIndex, indexChunkList]
      induction planes with
      | nil => rfl
      | cons p ps ih => simp_all

/-! ### C10 -/

/-- C10: `create_library` with an already-present `library_id` does not
fail; it silently overwrites the map entry with a fresh empty `Library`
and a fresh empty index of the configured class, discarding whatever
documents and chunks the old entry held. -/
theorem c10_create_library_replaces (s : Store) (lc : LibraryCreate)
    (new_id : String) (now : Nat) (e : LibEntry)
    (_hPresent : s.libs lc.library_id = some e) :
    (create_library s lc new_id now).1 =
      { id := new_id, metadata := lc.metadata, created_at := now, updated_at := now
        library_id := lc.library_id, documents := [], is_indexed := false } ∧
    (create_library s lc new_id now).2.libs lc.library_id =
      some ⟨(create_library s lc new_id now).1, freshIndex s.index_class s.lsh_planes⟩ ∧
    indexChunkList (freshIndex s.index_class s.lsh_planes) = [] := by
  refine ⟨rfl, ?_, indexChunkList_freshIndex _ _⟩
  simp [create_library, storeSet]

/-- Witness for C10 at a concrete store whose library `"L"` already holds a
document with a chunk. -/
theorem c10_witness :
    exStore.libs "L" = some ⟨exLib, Index.vector []⟩ ∧
    (create_library exStore ⟨"L", dictEmpty⟩ "x2" 7).2.libs "L" =
      some ⟨(create_library exStore ⟨"L", dictEmpty⟩ "x2" 7).1,
            freshIndex exStore.index_class exStore.lsh_planes⟩ ∧
    (create_library exStore ⟨"L", dictEmpty⟩ "x2" 7).1.documents = [] := by
  refine ⟨rfl, ?_, ?_⟩
  · exact (c10_create_library_replaces exStore ⟨"L", dictEmpty⟩ "x2" 7 _ rfl).2.1
  · rw [(c10_create_library_replaces exStore ⟨"L", dictEmpty⟩ "x2" 7 _ rfl).1]

/-! ### C5 -/

/-- C5: the store-level `switch_index_algorithm` (modelled from the spec,
see `switch_index_algorithm`) returns `false` when the library is absent,
and otherwise returns `true` after replacing the library's index with a
fresh empty index of the requested class, leaving the library's documents
and chunks untouched. -/
theorem c5_switch_index_algorithm :
    (∀ (s : Store) (lid : String) (cls : IndexClass) (now : Nat),
        s.libs lid = none → switch_index_algorithm s lid cls now = (false, s)) ∧
    (∀ (s : Store) (lid : String) (cls : IndexClass) (now : Nat) (e : LibEntry),
        s.libs lid = some e →
        (switch_index_algorithm s lid cls now).1 = true ∧
        ∃ e', (switch_index_algorithm s lid cls now).2.libs lid = some e' ∧
          e'.index = freshIndex cls s.lsh_planes ∧
          indexChunkList e'.index = [] ∧
          e'.library.documents = e.library.documents ∧
          treeChunks e'.library = treeChunks e.library) := by
  constructor
  · intro s lid cls now h
    simp [switch_index_algorithm, h]
  · intro s lid cls now e h
    refine ⟨by simp [switch_index_algorithm, h], ?_⟩
    refine ⟨⟨{ e.library with updated_at := now }, freshIndex cls s.lsh_planes⟩,
      by simp [switch_index_algorithm, h, storeSet], rfl,
      indexChunkList_freshIndex _ _, rfl, rfl⟩

/-- Witness for C5: absent library `"M"` yields `false` with the store
unchanged; present library `"L"` yields `true`, an empty LSH index, and
the same single-document tree. -/
theorem c5_witness :
    (exStore.libs "M" = none ∧
      switch_index_algorithm exStore "M" IndexClass.lsh 3 = (false, exStore)) ∧
    (exStore.libs "L" = some ⟨exLib, Index.vector []⟩ ∧
      (switch_index_algorithm exStore "L" IndexClass.lsh 3).1 = true ∧
      ∃ e', (switch_index_algorithm exStore "L" IndexClass.lsh 3).2.libs "L" = some e' ∧
        e'.index = freshIndex IndexClass.lsh exStore.lsh_planes ∧
        indexChunkList e'.index = [] ∧
        e'.library.documents = exLib.documents ∧
        treeChunks e'.library = treeChunks exLib) := by
  refine ⟨⟨rfl, c5_switch_index_algorithm.1 exStore "M" IndexClass.lsh 3 rfl⟩, ⟨rfl, ?_⟩⟩
  exact c5_switch_index_algorithm.2 exStore "L" IndexClass.lsh 3 _ rfl

/-! ### C8 -/

/-- C8: refutation of "a successful `add_chunk` marks the store dirty
regardless of whether the owning library is indexed".  `exStore` holds a
non-indexed library `"L"` with one document and one chunk, and its dirty
flag is clear (as after a snapshot tick).  `add_chunk` succeeds, appends
the chunk (the count goes from 1 to 2) and stamps the document, yet
`_needs_save` stays `false` because `_mark_for_save()` sits inside the
`if library.is_indexed` branch of the source. -/
theorem c8_add_chunk_not_marked_dirty :
    exStore.needs_save = false ∧
    (get_library exStore "L").map Library.is_indexed = some false ∧
    get_chunk_count exStore "L" = 1 ∧
    ((add_chunk exStore ⟨"L", some "d1", "t2", [0, 1], dictEmpty⟩ "c2" 5).1).isSome = true ∧
    get_chunk_count (add_chunk exStore ⟨"L", some "d1", "t2", [0, 1], dictEmpty⟩ "c2" 5).2 "L" = 2 ∧
    (get_document (add_chunk exStore ⟨"L", some "d1", "t2", [0, 1], dictEmpty⟩ "c2" 5).2
        "L" "d1").map Document.updated_at = some 5 ∧
    (add_chunk exStore ⟨"L", some "d1", "t2", [0, 1], dictEmpty⟩ "c2" 5).2.needs_save = false := by
  refine ⟨rfl, rfl, rfl, rfl, rfl, rfl, rfl⟩

/-! ### C1 -/

/-- The store states of the C1 scenario: create a library, add a document,
add a chunk, index the library, then delete the document. -/
def c1Base : Store :=
  { libs := fun _ => none, embedding_dimension := 2
    index_class := IndexClass.vector, lsh_planes := [], needs_save := false }

noncomputable def c1AfterIndex : Store :=
  (index_library
    (add_chunk
      (add_document (create_library c1Base ⟨"K", dictEmpty⟩ "x3" 0).2
        ⟨"K", "Doc", [], dictEmpty⟩ "d9" [] 1).2
      ⟨"K", some "d9", "hello", [1, 0], dictEmpty⟩ "c9" 2).2
    "K" 3).2

noncomputable def c1AfterDelete : Store := (delete_document c1AfterIndex "K" "d9" 4).2

/-- C1: evaluation of the failing scenario.  After `index_library` the
indexed-library invariant holds (one chunk in the tree, one in the index),
but `delete_document` pops the document without touching the index: the
library still reports `is_indexed = true` while the tree is empty and the
index still contains the deleted chunk, so the two chunk multisets
differ. -/
theorem c1_delete_document_breaks_index_invariant :
    ((delete_document c1AfterIndex "K" "d9" 4).1 = true) ∧
    (∃ e, c1AfterIndex.libs "K" = some e ∧ e.library.is_indexed = true ∧
      (treeChunks e.library).length = 1 ∧ (indexChunkList e.index).length = 1) ∧
    (∃ e, c1AfterDelete.libs "K" = some e ∧ e.library.is_indexed = true ∧
      (treeChunks e.library).length = 0 ∧ (indexChunkList e.index).length = 1 ∧
      (↑(treeChunks e.library) : Multiset Chunk) ≠ (↑(indexChunkList e.index) : Multiset Chunk)) := by
  refine ⟨rfl, ⟨_, rfl, rfl, rfl, rfl⟩, ⟨_, rfl, rfl, rfl, rfl, ?_⟩⟩
  intro h
  have := congrArg Multiset.card h
  simp only [Multiset.coe_card] at this
  exact absurd this (by decide)

/-! ### C2 -/

/-- `add_chunk` materializes the chunk for the first matching document. -/
lemma addChunkToDocs_of_find (did : String) (mk : Document → Chunk) (now : Nat) :
    ∀ (docs : List Document) (d : Document),
      docs.find? (fun d' => d'.id = did) = some d →
      ∃ docs', addChunkToDocs docs did mk now = some (mk d, docs') := by
  intro docs
  induction docs with
  | nil => intro d h; simp at h
  | cons d0 rest ih =>
      intro d h
      by_cases h0 : d0.id = did
      · rw [List.find?_cons_of_pos _ (by simpa using h0)] at h
        cases h
        exact ⟨_, by simp only [addChunkToDocs, if_pos h0]; rfl⟩
      · rw [List.find?_cons_of_neg _ (by simpa using h0)] at h
        obtain ⟨docs', hdocs'⟩ := ih d h
        exact ⟨_, by simp only [addChunkToDocs, if_neg h0, hdocs', Option.map_some]; rfl⟩

/-- C2 (amended): on a successful `add_chunk` the materialized chunk's
metadata holds `document_id` and `document_title` as *defaults* from the
owning document: a caller-supplied value for either key takes precedence,
and the document's value is used only when the caller supplied none
(`{"document_id": ..., "document_title": ..., **chunk_create.metadata}`). -/
theorem c2_add_chunk_metadata_defaults (s : Store) (cc : ChunkCreate)
    (new_id : String) (now : Nat) (did : String) (d : Document)
    (hdid : cc.document_id = some did)
    (hdoc : get_document s cc.library_id did = some d) :
    ∃ ch, (add_chunk s cc new_id now).1 = some ch ∧
      ch.metadata "document_id" = some ((cc.metadata "document_id").getD d.id) ∧
      ch.metadata "document_title" = some ((cc.metadata "document_title").getD d.document_title) := by
  unfold get_document at hdoc
  cases he : s.libs cc.library_id with
  | none => rw [he] at hdoc; exact absurd hdoc (by simp)
  | some e =>
      rw [he] at hdoc
      obtain ⟨docs', hdocs'⟩ :=
        addChunkToDocs_of_find did (materializeChunk cc new_id now) now _ _ hdoc
      refine ⟨materializeChunk cc new_id now d, ?_, ?_, ?_⟩
      · unfold add_chunk
        rw [hdid, he]
        by_cases hix : e.library.is_indexed <;> simp [hdocs', hix]
      · simp only [materializeChunk, dictUnion, dictSet, dictEmpty]
        cases cc.metadata "document_id" <;> simp
      · simp only [materializeChunk, dictUnion, dictSet, dictEmpty]
        cases cc.metadata "document_title" <;> simp

/-- Witness for C2's amended theorem: the caller supplies no
`document_id`, so the document's id `"d1"` is used; the caller supplies
`document_title = "X"`, so `"X"` wins. -/
theorem c2_witness :
    get_document exStore "L" "d1" = some exDoc ∧
    ∃ ch, (add_chunk exStore
        ⟨"L", some "d1", "t3", [0, 1], dictSet dictEmpty "document_title" "X"⟩ "c3" 6).1 = some ch ∧
      ch.metadata "document_id" = some "d1" ∧
      ch.metadata "document_title" = some "X" := by
  refine ⟨rfl, ?_⟩
  obtain ⟨ch, h1, h2, h3⟩ := c2_add_chunk_metadata_defaults exStore
    ⟨"L", some "d1", "t3", [0, 1], dictSet dictEmpty "document_title" "X"⟩ "c3" 6 "d1" exDoc
    rfl rfl
  exact ⟨ch, h1, by simpa [dictSet, dictEmpty] using h2, by simpa [dictSet, dictEmpty] using h3⟩

/-- Counterexample to C2 as stated: the owning document's title is `"T"`,
the caller supplies `document_title = "X"`, and the returned chunk keeps
the caller's `"X"` — the document's value does not overwrite it. -/
theorem c2_counterexample :
    get_document exStore "L" "d1" = some exDoc ∧ exDoc.document_title = "T" ∧
    ((add_chunk exStore
        ⟨"L", some "d1", "t4", [0, 1], dictSet dictEmpty "document_title" "X"⟩ "c5" 6).1).map
      (fun ch => ch.metadata "document_title") = some (some "X") ∧
    ("X" : String) ≠ "T" := by
  exact ⟨rfl, rfl, rfl, by decide⟩

/-! ### C3 -/

/-- A successful `addChunkToDocs` grows the total chunk count by one. -/
lemma addChunkToDocs_count (did : String) (mk : Document → Chunk) (now : Nat) :
    ∀ (docs : List Document) (ch : Chunk) (docs' : List Document),
      addChunkToDocs docs did mk now = some (ch, docs') →
      (docs'.map (fun d => d.chunks.length)).sum =
        (docs.map (fun d => d.chunks.length)).sum + 1 := by
  intro docs
  induction docs with
  | nil => intro ch docs' h; simp [addChunkToDocs] at h
  | cons d0 rest ih =>
      intro ch docs' h
      by_cases h0 : d0.id = did
      · simp only [addChunkToDocs, if_pos h0] at h
        cases h
        simp [Nat.add_assoc, Nat.add_comm 1]
      · simp only [addChunkToDocs, if_neg h0] at h
        cases hrec : addChunkToDocs rest did mk now with
        | none => rw [hrec] at h; simp at h
        | some p =>
            rw [hrec] at h
            simp only [Option.some.injEq] at h
            cases h
            have := ih p.1 p.2 hrec
            simp [this, Nat.add_assoc]

/-- C3 (amended): no embedding validation happens on ingest and none in the
store: `add_chunk` accepts an embedding whose length differs from the
configured dimension, stores it verbatim and grows the library's chunk
count; the only dimension/finiteness check lives in the API search
endpoint, which fails the request without reaching the store. -/
theorem c3_validation_only_in_api_search :
    (∀ (s : Store) (cc : ChunkCreate) (new_id : String) (now : Nat) (did : String) (d : Document),
        cc.document_id = some did →
        get_document s cc.library_id did = some d →
        cc.embedding.length ≠ s.embedding_dimension →
        ∃ ch, (add_chunk s cc new_id now).1 = some ch ∧ ch.embedding = cc.embedding ∧
          get_chunk_count (add_chunk s cc new_id now).2 cc.library_id =
            get_chunk_count s cc.library_id + 1) ∧
    (∀ (s : Store) (q : SearchQuery),
        q.embedding.length ≠ s.embedding_dimension → api_search s q = none) := by
  constructor
  · intro s cc new_id now did d hdid hdoc _hlen
    unfold get_document at hdoc
    cases he : s.libs cc.library_id with
    | none => rw [he] at hdoc; exact absurd hdoc (by simp)
    | some e =>
        rw [he] at hdoc
        obtain ⟨docs', hdocs'⟩ :=
          addChunkToDocs_of_find did (materializeChunk cc new_id now) now _ _ hdoc
        have hcount := addChunkToDocs_count did (materializeChunk cc new_id now) now
          _ _ _ hdocs'
        refine ⟨materializeChunk cc new_id now d, ?_, rfl, ?_⟩
        · unfold add_chunk
          rw [hdid, he]
          by_cases hix : e.library.is_indexed <;> simp [hdocs', hix]
        · unfold add_chunk
          rw [hdid, he]
          by_cases hix : e.library.is_indexed <;>
            simp [hdocs', hix, get_chunk_count, storeSet, he, hcount]
  · intro s q hlen
    simp [api_search, hlen]

/-- Witness for C3's amended theorem: the store dimension is 2, the
ingested embedding `[1]` has length 1 yet is stored (count 1 → 2), and a
length-1 query is rejected by the endpoint. -/
theorem c3_witness :
    ((⟨"L", some "d1", "t5", [1], dictEmpty⟩ : ChunkCreate).embedding.length ≠
        exStore.embedding_dimension) ∧
    (∃ ch, (add_chunk exStore ⟨"L", some "d1", "t5", [1], dictEmpty⟩ "c6" 8).1 = some ch ∧
      ch.embedding = [1] ∧
      get_chunk_count (add_chunk exStore ⟨"L", some "d1", "t5", [1], dictEmpty⟩ "c6" 8).2 "L" =
        get_chunk_count exStore "L" + 1) ∧
    api_search exStore ⟨"L", [1], 1, []⟩ = none := by
  refine ⟨by decide, ?_, ?_⟩
  · exact c3_validation_only_in_api_search.1 exStore
      ⟨"L", some "d1", "t5", [1], dictEmpty⟩ "c6" 8 "d1" exDoc rfl rfl (by decide)
  · exact c3_validation_only_in_api_search.2 exStore ⟨"L", [1], 1, []⟩ (by decide)

/-- Counterexample to C3 as stated: an `add_chunk` whose embedding length
(1) differs from the configured dimension (2) does not surface any error
and does not leave the store unchanged — it returns the chunk and the
library's chunk count grows from 1 to 2. -/
theorem c3_counterexample :
    exStore.embedding_dimension = 2 ∧
    ((add_chunk exStore ⟨"L", some "d1", "t6", [1], dictEmpty⟩ "c7" 9).1).map
      Chunk.embedding = some [1] ∧
    get_chunk_count exStore "L" = 1 ∧
    get_chunk_count (add_chunk exStore ⟨"L", some "d1", "t6", [1], dictEmpty⟩ "c7" 9).2 "L" = 2 := by
  exact ⟨rfl, rfl, rfl, rfl⟩

/-! ### C7 -/

def c7A : Chunk :=
  { id := "a1", metadata := dictEmpty, created_at := 0, updated_at := 0
    text := "a", embedding := [1, 0] }

def c7B : Chunk :=
  { id := "b1", metadata := dictEmpty, created_at := 0, updated_at := 0
    text := "b", embedding := [2, 0] }

lemma sqrt_four : Real.sqrt 4 = 2 := by
  rw [show (4 : ℝ) = 2 ^ 2 by norm_num]
  exact Real.sqrt_sq (by norm_num)

/-- C7: evaluation at the failing input.  The two stored chunks `[1,0]` and
`[2,0]` have the same cosine similarity 1 to the query `[1,0]`; Python's
`similarities.sort(reverse=True)` then compares the unorderable `Chunk`
objects and raises `TypeError`, so the search crashes (`none`) instead of
returning the tie in insertion order. -/
theorem c7_exact_search_crashes_on_tie :
    c7A.embedding ≠ c7B.embedding ∧
    cos_sim [1, 0] c7A.embedding = ((1 : ℝ) : PFloat) ∧
    cos_sim [1, 0] c7B.embedding = ((1 : ℝ) : PFloat) ∧
    vector_search [c7A, c7B] [1, 0] 2 = none := by
  have hq : normv [1, 0] = 1 := by
    simp only [normv]
    rw [show dotv [1, 0] [1, 0] = 1 by norm_num [dotv]]
    exact Real.sqrt_one
  have hB : normv [2, 0] = 2 := by
    simp only [normv]
    rw [show dotv [2, 0] [2, 0] = 4 by norm_num [dotv]]
    exact sqrt_four
  have hsA : cos_sim [1, 0] c7A.embedding = ((1 : ℝ) : PFloat) := by
    rw [show c7A.embedding = [1, 0] from rfl, cos_sim, if_neg (by rw [hq]; norm_num)]
    rw [hq, show dotv [1, 0] [1, 0] = 1 by norm_num [dotv]]
    norm_num
  have hsB : cos_sim [1, 0] c7B.embedding = ((1 : ℝ) : PFloat) := by
    rw [show c7B.embedding = [2, 0] from rfl, cos_sim, if_neg (by rw [hq, hB]; norm_num)]
    rw [hq, hB, show dotv [1, 0] [2, 0] = 2 by norm_num [dotv]]
    norm_num
  have hcrash : sortCrashes
      (([c7A, c7B].map (fun c => (cos_sim [1, 0] c.embedding, c))).map Prod.fst) := by
    simp only [List.map_cons, List.map_nil, hsA, hsB, sortCrashes, keyClash]
    intro hp
    rcases List.pairwise_cons.mp hp with ⟨h1, _⟩
    exact h1 _ (by simp) ⟨rfl, WithBot.coe_ne_bot⟩
  refine ⟨by simp [c7A, c7B], hsA, hsB, ?_⟩
  rw [vector_search, if_neg (by simp), if_pos hcrash]

/-! ### C6 -/

lemma dotv_self_zero {v : Vec} (hv : ∀ x ∈ v, x = (0 : ℝ)) : dotv v v = 0 := by
  induction v with
  | nil => rfl
  | cons x xs ih =>
      have hx : x = 0 := hv x (by simp)
      have : ∀ y ∈ xs, y = (0 : ℝ) := fun y hy => hv y (by simp [hy])
      simp [dotv, List.zipWith] at ih ⊢
      rw [hx, ih this]
      ring

lemma normv_zero_of_all_zero {v : Vec} (hv : ∀ x ∈ v, x = (0 : ℝ)) : normv v = 0 := by
  rw [normv, dotv_self_zero hv, Real.sqrt_zero]

/-- C6 (amended): with an all-zero query vector, `LSHIndex.search` is total
— the hash regularization makes bucket lookup well-defined, no exception
is raised (NaN keys are never equal, so the sort cannot hit the
`TypeError`), and a possibly-empty list is returned — but every returned
distance is NaN (`⊥`): the search-stage normalization `query/‖query‖`
divides by the unregularized zero norm. -/
theorem c6_zero_query_lsh_total_but_nan (planes : List (List Vec))
    (tables : List HashTable) (q : Vec) (k : Nat)
    (hq : ∀ x ∈ q, x = (0 : ℝ)) :
    ∃ l, lsh_search planes tables q k = some l ∧ ∀ p ∈ l, p.1 = (⊥ : PFloat) := by
  have hnq : normv q = 0 := normv_zero_of_all_zero hq
  rw [lsh_search]
  by_cases hc : (lsh_candidates planes tables q).isEmpty
  · exact ⟨[], by simp [hc], by simp⟩
  · have hdists : (lsh_candidates planes tables q).map
        (fun c => (oneMinus (cos_sim q c.embedding), c)) =
        (lsh_candidates planes tables q).map (fun c => ((⊥ : PFloat), c)) := by
      apply List.map_congr_left
      intro c _
      rw [cos_sim, if_pos (Or.inl hnq)]
      simp [oneMinus]
    rw [if_neg (by simpa using hc)]
    simp only [hdists]
    rw [if_neg ?_]
    · refine ⟨_, rfl, ?_⟩
      intro p hp
      have hp1 : p ∈ (lsh_candidates planes tables q).map (fun c => ((⊥ : PFloat), c)) := by
        have := (List.take_sublist k _).subset hp
        exact (List.perm_insertionSort keyLe _).subset this
      obtain ⟨c, _, hc'⟩ := List.mem_map.mp hp1
      rw [← hc']
    · intro hcrash
      apply hcrash
      have hkeys : (((lsh_candidates planes tables q).map
            (fun c => ((⊥ : PFloat), c))).map Prod.fst) =
          (lsh_candidates planes tables q).map (fun _ => (⊥ : PFloat)) := by
        simp [List.map_map, Function.comp]
      rw [hdists, hkeys, List.pairwise_map]
      exact List.pairwise_of_forall (fun _ _ => fun h => h.2 rfl)

def c6Chunk : Chunk :=
  { id := "z1", metadata := dictEmpty, created_at := 0, updated_at := 0
    text := "z", embedding := [-1, 0] }

/-- Witness for C6's amended theorem on an empty one-plane LSH index with
the all-zero query `[0, 0]`. -/
theorem c6_witness :
    (∀ x ∈ ([0, 0] : Vec), x = (0 : ℝ)) ∧
    ∃ l, lsh_search [[[1, 0]]] [[]] [0, 0] 1 = some l ∧ ∀ p ∈ l, p.1 = (⊥ : PFloat) := by
  refine ⟨by intro x hx; simpa using hx, ?_⟩
  exact c6_zero_query_lsh_total_but_nan [[[1, 0]]] [[]] [0, 0] 1
    (by intro x hx; simpa using hx)

/-- Counterexample to C6 as stated: one hyperplane `[1,0]`, one chunk
`[-1,0]` inserted into the fresh index (it lands in bucket `0`, the same
bucket the all-zero query hashes to), query `[0,0]`, `k = 1`.  The call
returns normally but its single distance is NaN (`⊥`), refuting "no
undefined (NaN) distances". -/
theorem c6_counterexample :
    insertIdx (Index.lsh [[[1, 0]]] [[]]) c6Chunk =
      Index.lsh [[[1, 0]]] [[([false], [c6Chunk])]] ∧
    lsh_search [[[1, 0]]] [[([false], [c6Chunk])]] [0, 0] 1 = some [((⊥ : PFloat), c6Chunk)] := by
  have hnC : normv [-1, 0] = 1 := by
    simp only [normv]
    rw [show dotv [-1, 0] [-1, 0] = 1 by norm_num [dotv]]
    exact Real.sqrt_one
  have hkeyC : hash_vector c6Chunk.embedding [[1, 0]] = [false] := by
    rw [show c6Chunk.embedding = [-1, 0] from rfl, hash_vector]
    simp only [hnC, List.map_cons, List.map_nil]
    congr 1
    rw [decide_eq_false_iff_not]
    rw [show dotv [1, 0] [(-1 : ℝ) / (1 + 1 / 10 ^ 10), 0 / (1 + 1 / 10 ^ 10)] =
      (-1 : ℝ) / (1 + 1 / 10 ^ 10) by norm_num [dotv]]
    norm_num
  have hnQ : normv [0, 0] = 0 := normv_zero_of_all_zero (by intro x hx; simpa using hx)
  have hkeyQ : hash_vector [0, 0] [[1, 0]] = [false] := by
    rw [hash_vector]
    simp only [hnQ, List.map_cons, List.map_nil]
    congr 1
    rw [decide_eq_false_iff_not]
    rw [show dotv [1, 0] [(0 : ℝ) / (0 + 1 / 10 ^ 10), 0 / (0 + 1 / 10 ^ 10)] = 0 by
      norm_num [dotv]]
    norm_num
  constructor
  · rw [insertIdx]
    simp only [List.zipWith, hkeyC]
    rfl
  · have hcands : lsh_candidates [[[1, 0]]] [[([false], [c6Chunk])]] [0, 0] = [c6Chunk] := by
      rw [lsh_candidates]
      simp only [List.zipWith, hkeyQ]
      rfl
    have hsim : cos_sim [0, 0] c6Chunk.embedding = (⊥ : PFloat) := by
      rw [cos_sim, if_pos (Or.inl hnQ)]
    rw [lsh_search]
    simp only [hcands, List.map_cons, List.map_nil, hsim,
      show oneMinus (⊥ : PFloat) = (⊥ : PFloat) from rfl]
    rw [if_neg (by simp [hcands]),
      if_neg (by simp [sortCrashes, hcands, hsim, oneMinus, keyClash])]
    simp [hcands, hsim, oneMinus, List.insertionSort]

/-! ### C4: Cauchy–Schwarz for the truncating dot product -/

lemma dotv_eq_sum (v : Vec) : ∀ w : Vec,
    dotv v w = ∑ i ∈ Finset.range (min v.length w.length),
      v.getD i 0 * w.getD i 0 := by
  induction v with
  | nil => intro w; simp [dotv]
  | cons x xs ih =>
      intro w
      cases w with
      | nil => simp [dotv]
      | cons y ys =>
          have : min (x :: xs).length (y :: ys).length = min xs.length ys.length + 1 := by
            simp [Nat.succ_min_succ]
          rw [this, Finset.sum_range_succ']
          simp only [List.getD_cons_succ, List.getD_cons_zero]
          rw [← ih ys]
          simp [dotv, List.zipWith]
          ring

lemma dotv_self_eq (v : Vec) :
    dotv v v = ∑ i ∈ Finset.range v.length, v.getD i 0 ^ 2 := by
  rw [dotv_eq_sum, min_self]
  exact Finset.sum_congr rfl (fun i _ => (sq (v.getD i 0)).symm)

lemma dotv_self_nonneg (v : Vec) : 0 ≤ dotv v v := by
  rw [dotv_self_eq]
  exact Finset.sum_nonneg (fun i _ => sq_nonneg _)

lemma normv_nonneg (v : Vec) : 0 ≤ normv v := Real.sqrt_nonneg _

lemma normv_pos_of_ne {v : Vec} (h : normv v ≠ 0) : 0 < normv v :=
  lt_of_le_of_ne (normv_nonneg v) (Ne.symm h)

lemma sqrt_partial_sum_le (v : Vec) {m : ℕ} (hm : m ≤ v.length) :
    Real.sqrt (∑ i ∈ Finset.range m, v.getD i 0 ^ 2) ≤ normv v := by
  rw [normv, dotv_self_eq]
  exact Real.sqrt_le_sqrt (Finset.sum_le_sum_of_subset_of_nonneg
    (Finset.range_subset.mpr hm) (fun i _ _ => sq_nonneg _))

lemma dotv_le_norm_mul_norm (v w : Vec) : dotv v w ≤ normv v * normv w := by
  rw [dotv_eq_sum]
  calc
    ∑ i ∈ Finset.range (min v.length w.length), v.getD i 0 * w.getD i 0 ≤
        Real.sqrt (∑ i ∈ Finset.range (min v.length w.length), v.getD i 0 ^ 2) *
        Real.sqrt (∑ i ∈ Finset.range (min v.length w.length), w.getD i 0 ^ 2) :=
      Real.sum_mul_le_sqrt_mul_sqrt _ _ _
    _ ≤ normv v * normv w :=
      mul_le_mul (sqrt_partial_sum_le v (min_le_left _ _))
        (sqrt_partial_sum_le w (min_le_right _ _)) (Real.sqrt_nonneg _) (normv_nonneg v)

lemma abs_dotv_le_norm_mul_norm (v w : Vec) : |dotv v w| ≤ normv v * normv w := by
  rw [abs_le]
  refine ⟨?_, dotv_le_norm_mul_norm v w⟩
  have h := Real.sum_mul_le_sqrt_mul_sqrt
    (Finset.range (min v.length w.length)) (fun i => v.getD i 0) (fun i => -(w.getD i 0))
  simp only [mul_neg, Finset.sum_neg_distrib, neg_sq] at h
  have h2 : -(dotv v w) ≤ normv v * normv w := by
    rw [dotv_eq_sum]
    calc
      -∑ i ∈ Finset.range (min v.length w.length), v.getD i 0 * w.getD i 0 ≤
          Real.sqrt (∑ i ∈ Finset.range (min v.length w.length), v.getD i 0 ^ 2) *
          Real.sqrt (∑ i ∈ Finset.range (min v.length w.length), w.getD i 0 ^ 2) := h
      _ ≤ normv v * normv w :=
        mul_le_mul (sqrt_partial_sum_le v (min_le_left _ _))
          (sqrt_partial_sum_le w (min_le_right _ _)) (Real.sqrt_nonneg _) (normv_nonneg v)
  linarith

/-- Under nonzero norms, the similarity is a real in `[-1, 1]`, so the
distance `1 - sim` lies in `[0, 2]`. -/
lemma cos_sim_bounds {q v : Vec} (hq : normv q ≠ 0) (hv : normv v ≠ 0) :
    cos_sim q v = ((dotv q v / (normv q * normv v) : ℝ) : PFloat) ∧
    -1 ≤ dotv q v / (normv q * normv v) ∧ dotv q v / (normv q * normv v) ≤ 1 := by
  have hpos : 0 < normv q * normv v :=
    mul_pos (normv_pos_of_ne hq) (normv_pos_of_ne hv)
  have habs : |dotv q v / (normv q * normv v)| ≤ 1 := by
    rw [abs_div, abs_of_pos hpos]
    exact div_le_one_of_le₀ (abs_dotv_le_norm_mul_norm q v) (le_of_lt hpos)
  rw [abs_le] at habs
  exact ⟨by rw [cos_sim, if_neg (by push_neg; exact ⟨hq, hv⟩)], habs.1, habs.2⟩

lemma mem_of_mem_take_sort {r : PFloat × Chunk → PFloat × Chunk → Prop}
    [DecidableRel r] {entries : List (PFloat × Chunk)} {k : ℕ} {p : PFloat × Chunk}
    (hp : p ∈ (entries.insertionSort r).take k) : p ∈ entries :=
  (List.perm_insertionSort r entries).subset ((List.take_sublist _ _).subset hp)

/-- The exact index search, under the amended hypotheses: nonzero query
norm, nonzero chunk norms, pairwise-distinct sort keys (no `TypeError`). -/
lemma vector_search_props (cs : List Chunk) (q : Vec) (k : ℕ)
    (hq : normv q ≠ 0) (hcs : ∀ c ∈ cs, normv c.embedding ≠ 0)
    (hkeys : ((cs.map (fun c => (cos_sim q c.embedding, c))).map Prod.fst).Pairwise (· ≠ ·)) :
    ∃ l, vector_search cs q k = some l ∧
      l.Pairwise (fun a b => a.1 ≤ b.1) ∧
      l.length ≤ k ∧
      ∀ p ∈ l, ∃ c ∈ cs, p.2 = c ∧
        p.1 = ((1 - dotv q c.embedding / (normv q * normv c.embedding) : ℝ) : PFloat) ∧
        0 ≤ 1 - dotv q c.embedding / (normv q * normv c.embedding) ∧
        1 - dotv q c.embedding / (normv q * normv c.embedding) ≤ 2 := by
  by_cases hempty : cs.isEmpty
  · exact ⟨[], by simp [vector_search, hempty], by simp, by simp, by simp⟩
  · have hnocrash :
        ¬ sortCrashes ((cs.map (fun c => (cos_sim q c.embedding, c))).map Prod.fst) := by
      rw [sortCrashes, not_not]
      exact hkeys.imp (fun h hc => h hc.1)
    have hmem : ∀ p ∈ ((cs.map (fun c => (cos_sim q c.embedding, c))).insertionSort
        keyGe).take k, ∃ c ∈ cs, p = (cos_sim q c.embedding, c) := by
      intro p hp
      obtain ⟨c, hc, hcp⟩ := List.mem_map.mp (mem_of_mem_take_sort hp)
      exact ⟨c, hc, hcp.symm⟩
    have heval : vector_search cs q k =
        some ((((cs.map (fun c => (cos_sim q c.embedding, c))).insertionSort keyGe).take
          k).map (fun p => (oneMinus p.1, p.2))) := by
      rw [vector_search, if_neg (by simpa using hempty), if_neg hnocrash]
    refine ⟨_, heval, ?_, ?_, ?_⟩
    · have hsorted : (((cs.map (fun c => (cos_sim q c.embedding, c))).insertionSort
          keyGe).take k).Pairwise keyGe :=
        List.Pairwise.sublist (List.take_sublist _ _) (List.sorted_insertionSort keyGe _)
      rw [List.pairwise_map]
      refine List.Pairwise.imp_of_mem ?_ hsorted
      intro a b ha hb hge
      obtain ⟨c1, hc1, hac⟩ := hmem a ha
      obtain ⟨c2, hc2, hbc⟩ := hmem b hb
      obtain ⟨he1, _, _⟩ := cos_sim_bounds hq (hcs c1 hc1)
      obtain ⟨he2, _, _⟩ := cos_sim_bounds hq (hcs c2 hc2)
      have ha1 : a.1 = ((dotv q c1.embedding / (normv q * normv c1.embedding) : ℝ) : PFloat) := by
        rw [hac]; exact he1
      have hb1 : b.1 = ((dotv q c2.embedding / (normv q * normv c2.embedding) : ℝ) : PFloat) := by
        rw [hbc]; exact he2
      have hle : dotv q c2.embedding / (normv q * normv c2.embedding) ≤
          dotv q c1.embedding / (normv q * normv c1.embedding) := by
        have := hge
        rw [keyGe, ha1, hb1] at this
        exact_mod_cast this
      show oneMinus a.1 ≤ oneMinus b.1
      rw [ha1, hb1, oneMinus, oneMinus, WithBot.map_coe, WithBot.map_coe, WithBot.coe_le_coe]
      linarith
    · simp [List.length_take]
    · intro p hp
      obtain ⟨p', hp', hpp⟩ := List.mem_map.mp hp
      obtain ⟨c, hc, hpc⟩ := hmem p' hp'
      obtain ⟨he, hlo, hhi⟩ := cos_sim_bounds hq (hcs c hc)
      refine ⟨c, hc, ?_, ?_, by linarith, by linarith⟩
      · rw [← hpp, hpc]
      · rw [← hpp, hpc, he]
        simp only [oneMinus, WithBot.map_coe]

/-- The LSH search, under the amended hypotheses. -/
lemma lsh_search_props (planes : List (List Vec)) (tables : List HashTable)
    (q : Vec) (k : ℕ) (hq : normv q ≠ 0)
    (hcand : ∀ c ∈ lsh_candidates planes tables q, normv c.embedding ≠ 0)
    (hkeys : (((lsh_candidates planes tables q).map
        (fun c => (oneMinus (cos_sim q c.embedding), c))).map Prod.fst).Pairwise (· ≠ ·)) :
    ∃ l, lsh_search planes tables q k = some l ∧
      l.Pairwise (fun a b => a.1 ≤ b.1) ∧
      l.length ≤ k ∧
      ∀ p ∈ l, ∃ c ∈ lsh_candidates planes tables q, p.2 = c ∧
        p.1 = ((1 - dotv q c.embedding / (normv q * normv c.embedding) : ℝ) : PFloat) ∧
        0 ≤ 1 - dotv q c.embedding / (normv q * normv c.embedding) ∧
        1 - dotv q c.embedding / (normv q * normv c.embedding) ≤ 2 := by
  by_cases hempty : (lsh_candidates planes tables q).isEmpty
  · exact ⟨[], by simp [lsh_search, hempty], by simp, by simp, by simp⟩
  · have hnocrash : ¬ sortCrashes (((lsh_candidates planes tables q).map
        (fun c => (oneMinus (cos_sim q c.embedding), c))).map Prod.fst) := by
      rw [sortCrashes, not_not]
      exact hkeys.imp (fun h hc => h hc.1)
    have hmem : ∀ p ∈ (((lsh_candidates planes tables q).map
        (fun c => (oneMinus (cos_sim q c.embedding), c))).insertionSort keyLe).take k,
        ∃ c ∈ lsh_candidates planes tables q, p = (oneMinus (cos_sim q c.embedding), c) := by
      intro p hp
      obtain ⟨c, hc, hcp⟩ := List.mem_map.mp (mem_of_mem_take_sort hp)
      exact ⟨c, hc, hcp.symm⟩
    have heval : lsh_search planes tables q k =
        some ((((lsh_candidates planes tables q).map
          (fun c => (oneMinus (cos_sim q c.embedding), c))).insertionSort keyLe).take k) := by
      rw [lsh_search, if_neg (by simpa using hempty), if_neg hnocrash]
    refine ⟨_, heval, ?_, by simp [List.length_take], ?_⟩
    · exact List.Pairwise.sublist (List.take_sublist _ _)
        (List.sorted_insertionSort keyLe _)
    · intro p hp
      obtain ⟨c, hc, hpc⟩ := hmem p hp
      obtain ⟨he, hlo, hhi⟩ := cos_sim_bounds hq (hcand c hc)
      refine ⟨c, hc, by rw [hpc], ?_, by linarith, by linarith⟩
      rw [hpc, he]
      simp only [oneMinus, WithBot.map_coe]

lemma lsh_candidates_fresh (planes : List (List Vec)) (q : Vec) :
    lsh_candidates planes (planes.map (fun _ => [])) q = [] := by
  have hz : ∀ ps : List (List Vec),
      (List.zipWith (fun pl t => bucketGet t (hash_vector q pl)) ps
        (ps.map (fun _ => ([] : HashTable)))).flatten = [] := by
    intro ps
    induction ps with
    | nil => rfl
    | cons p rest ih => simpa [bucketGet] using ih
  rw [lsh_candidates, hz]
  rfl

/-- C4 (amended): for both index kinds, provided the query and the stored
embeddings are valid (matching lengths, nonzero norms) and no two sort
keys are equal (two equal keys make Python's tuple sort compare the
unorderable `Chunk` objects and raise `TypeError`), a search returns
normally with a list sorted by non-decreasing distance, of length at most
`k` (hence empty for `k = 0`), in which every distance is exactly
`1 - dot(q,c)/(‖q‖·‖c‖)` and lies in `[0, 2]`; an empty index returns the
empty list unconditionally. -/
theorem c4_search_sorted_bounded_topk :
    (∀ (cs : List Chunk) (q : Vec) (k : ℕ),
        (∀ c ∈ cs, c.embedding.length = q.length) →
        normv q ≠ 0 →
        (∀ c ∈ cs, normv c.embedding ≠ 0) →
        ((cs.map (fun c => (cos_sim q c.embedding, c))).map Prod.fst).Pairwise (· ≠ ·) →
        ∃ l, vector_search cs q k = some l ∧
          l.Pairwise (fun a b => a.1 ≤ b.1) ∧
          l.length ≤ k ∧
          ∀ p ∈ l, ∃ c ∈ cs, p.2 = c ∧
            p.1 = ((1 - dotv q c.embedding / (normv q * normv c.embedding) : ℝ) : PFloat) ∧
            0 ≤ 1 - dotv q c.embedding / (normv q * normv c.embedding) ∧
            1 - dotv q c.embedding / (normv q * normv c.embedding) ≤ 2) ∧
    (∀ (planes : List (List Vec)) (tables : List HashTable) (q : Vec) (k : ℕ),
        (∀ pl ∈ planes, ∀ p ∈ pl, List.length p = q.length) →
        (∀ c ∈ lsh_candidates planes tables q, c.embedding.length = q.length) →
        normv q ≠ 0 →
        (∀ c ∈ lsh_candidates planes tables q, normv c.embedding ≠ 0) →
        (((lsh_candidates planes tables q).map
            (fun c => (oneMinus (cos_sim q c.embedding), c))).map Prod.fst).Pairwise (· ≠ ·) →
        ∃ l, lsh_search planes tables q k = some l ∧
          l.Pairwise (fun a b => a.1 ≤ b.1) ∧
          l.length ≤ k ∧
          ∀ p ∈ l, ∃ c ∈ lsh_candidates planes tables q, p.2 = c ∧
            p.1 = ((1 - dotv q c.embedding / (normv q * normv c.embedding) : ℝ) : PFloat) ∧
            0 ≤ 1 - dotv q c.embedding / (normv q * normv c.embedding) ∧
            1 - dotv q c.embedding / (normv q * normv c.embedding) ≤ 2) ∧
    (∀ (q : Vec) (k : ℕ), vector_search [] q k = some []) ∧
    (∀ (planes : List (List Vec)) (q : Vec) (k : ℕ),
        lsh_search planes (planes.map (fun _ => [])) q k = some []) := by
  refine ⟨?_, ?_, ?_, ?_⟩
  · intro cs q k _hlen hq hcs hkeys
    exact vector_search_props cs q k hq hcs hkeys
  · intro planes tables q k _hpl _hlen hq hcand hkeys
    exact lsh_search_props planes tables q k hq hcand hkeys
  · intro q k
    simp [vector_search]
  · intro planes q k
    rw [lsh_search, if_pos (by rw [lsh_candidates_fresh]; rfl)]

lemma normv_one_zero : normv [(1 : ℝ), 0] = 1 := by
  simp only [normv]
  rw [show dotv [(1 : ℝ), 0] [1, 0] = 1 by norm_num [dotv]]
  exact Real.sqrt_one

lemma normv_zero_one : normv [(0 : ℝ), 1] = 1 := by
  simp only [normv]
  rw [show dotv [(0 : ℝ), 1] [0, 1] = 1 by norm_num [dotv]]
  exact Real.sqrt_one

lemma cos_sim_e1_e1 : cos_sim [(1 : ℝ), 0] [1, 0] = ((1 : ℝ) : PFloat) := by
  rw [cos_sim, if_neg (by rw [normv_one_zero]; norm_num)]
  rw [normv_one_zero, show dotv [(1 : ℝ), 0] [1, 0] = 1 by norm_num [dotv]]
  norm_num

lemma cos_sim_e1_e2 : cos_sim [(1 : ℝ), 0] [0, 1] = ((0 : ℝ) : PFloat) := by
  rw [cos_sim, if_neg (by rw [normv_one_zero, normv_zero_one]; norm_num)]
  rw [normv_one_zero, normv_zero_one, show dotv [(1 : ℝ), 0] [0, 1] = 0 by norm_num [dotv]]
  norm_num

def c4W1 : Chunk :=
  { id := "w1", metadata := dictEmpty, created_at := 0, updated_at := 0
    text := "w1", embedding := [1, 0] }

def c4W2 : Chunk :=
  { id := "w2", metadata := dictEmpty, created_at := 0, updated_at := 0
    text := "w2", embedding := [0, 1] }

/-- Witness for C4's amended theorem: a two-chunk exact index (`[1,0]`,
`[0,1]`) with query `[1,0]` and `k = 2` has matching lengths, unit norms,
and distinct similarities (1 and 0), so the search succeeds sorted and
bounded; a fresh one-plane LSH index returns `some []`. -/
theorem c4_witness :
    (∀ c ∈ [c4W1, c4W2], c.embedding.length = ([1, 0] : Vec).length) ∧
    normv [(1 : ℝ), 0] ≠ 0 ∧
    (∀ c ∈ [c4W1, c4W2], normv c.embedding ≠ 0) ∧
    (([c4W1, c4W2].map (fun c => (cos_sim [1, 0] c.embedding, c))).map Prod.fst).Pairwise
      (· ≠ ·) ∧
    (∃ l, vector_search [c4W1, c4W2] [1, 0] 2 = some l ∧
      l.Pairwise (fun a b => a.1 ≤ b.1) ∧ l.length ≤ 2) ∧
    (∃ l, lsh_search [[[1, 0]]] [[]] [1, 0] 3 = some l ∧ l.length ≤ 3) := by
  have h1 : c4W1.embedding = ([1, 0] : Vec) := rfl
  have h2 : c4W2.embedding = ([0, 1] : Vec) := rfl
  have hq : normv [(1 : ℝ), 0] ≠ 0 := by rw [normv_one_zero]; norm_num
  have hcs : ∀ c ∈ [c4W1, c4W2], normv c.embedding ≠ 0 := by
    intro c hc
    rcases (by simpa using hc : c = c4W1 ∨ c = c4W2) with h | h <;> subst h
    · rw [h1, normv_one_zero]; norm_num
    · rw [h2, normv_zero_one]; norm_num
  have hkeys : (([c4W1, c4W2].map (fun c => (cos_sim [1, 0] c.embedding, c))).map
      Prod.fst).Pairwise (· ≠ ·) := by
    simp only [List.map_cons, List.map_nil, h1, h2, cos_sim_e1_e1, cos_sim_e1_e2]
    refine List.pairwise_cons.mpr ⟨?_, List.pairwise_singleton _ _⟩
    intro b hb
    rw [List.mem_singleton.mp hb]
    intro h
    exact one_ne_zero (WithBot.coe_eq_coe.mp h)
  have hlen : ∀ c ∈ [c4W1, c4W2], c.embedding.length = ([1, 0] : Vec).length := by
    intro c hc
    rcases (by simpa using hc : c = c4W1 ∨ c = c4W2) with h | h <;> subst h <;> rfl
  refine ⟨hlen, hq, hcs, hkeys, ?_, ?_⟩
  · obtain ⟨l, hl, hsort, hlenl, _⟩ :=
      c4_search_sorted_bounded_topk.1 [c4W1, c4W2] [1, 0] 2 hlen hq hcs hkeys
    exact ⟨l, hl, hsort, hlenl⟩
  · have hfresh : ([[]] : List HashTable) = ([[[1, 0]]] : List (List Vec)).map (fun _ => []) :=
      rfl
    have hcand : lsh_candidates [[[1, 0]]] [[]] [1, 0] = [] := by
      rw [hfresh]; exact lsh_candidates_fresh _ _
    obtain ⟨l, hl, _, hlenl, _⟩ :=
      c4_search_sorted_bounded_topk.2.1 [[[1, 0]]] [[]] [1, 0] 3
        (by intro pl hpl p hp
            rw [List.mem_singleton.mp hpl] at hp
            rw [List.mem_singleton.mp hp])
        (by rw [hcand]; intro c hc; simp at hc)
        hq
        (by rw [hcand]; intro c hc; simp at hc)
        (by rw [hcand]; simp)
    exact ⟨l, hl, hlenl⟩

def c4D1 : Chunk :=
  { id := "p1", metadata := dictEmpty, created_at := 0, updated_at := 0
    text := "p1", embedding := [1, 0] }

def c4D2 : Chunk :=
  { id := "p2", metadata := dictEmpty, created_at := 0, updated_at := 0
    text := "p2", embedding := [1, 0] }

/-- Counterexample to C4 as stated: two stored chunks with the valid
nonzero embedding `[1,0]`, query `[1,0]`, `k = 0`.  The claim requires an
empty result, but the sort runs before the `[:k]` slice, hits the tied
similarities, and raises `TypeError` — there is no returned sequence. -/
theorem c4_counterexample :
    vector_search [c4D1, c4D2] [1, 0] 0 = none ∧
    (none : Option (List (PFloat × Chunk))) ≠ some [] := by
  have h1 : c4D1.embedding = ([1, 0] : Vec) := rfl
  have h2 : c4D2.embedding = ([1, 0] : Vec) := rfl
  have hcrash : sortCrashes
      (([c4D1, c4D2].map (fun c => (cos_sim [1, 0] c.embedding, c))).map Prod.fst) := by
    simp only [List.map_cons, List.map_nil, h1, h2, cos_sim_e1_e1, sortCrashes, keyClash]
    intro hp
    rcases List.pairwise_cons.mp hp with ⟨hctr, _⟩
    exact hctr _ (by simp) ⟨rfl, WithBot.coe_ne_bot⟩
  refine ⟨?_, by simp⟩
  rw [vector_search, if_neg (by simp), if_pos hcrash]

/-! ### C9 -/

/-- Everything about a library that `db_search` and `index_library` read:
the `is_indexed` flag, the document tree, and the index. -/
def libView (s : Store) (lid : String) : Option (Bool × List Document × Index) :=
  (s.libs lid).map (fun e => (e.library.is_indexed, e.library.documents, e.index))

lemma treeChunks_congr {l1 l2 : Library} (h : l1.documents = l2.documents) :
    treeChunks l1 = treeChunks l2 := by
  rw [treeChunks, treeChunks, h]

lemma clearIdx_insertIdx (idx : Index) (c : Chunk) :
    clearIdx (insertIdx idx c) = clearIdx idx := by
  cases idx <;> rfl

lemma clearIdx_insertAll (idx : Index) (cs : List Chunk) :
    clearIdx (insertAll idx cs) = clearIdx idx := by
  induction cs generalizing idx with
  | nil => rfl
  | cons c rest ih =>
      rw [insertAll, List.foldl_cons, ← insertAll, ih, clearIdx_insertIdx]

lemma clearIdx_clearIdx (idx : Index) : clearIdx (clearIdx idx) = clearIdx idx := by
  cases idx <;> simp [clearIdx, List.map_map]

lemma index_library_none {s : Store} {lid : String} {t : Nat}
    (he : s.libs lid = none) : index_library s lid t = (false, s) := by
  unfold index_library
  rw [he]

lemma index_library_some {s : Store} {lid : String} {t : Nat} {e : LibEntry}
    (he : s.libs lid = some e) :
    index_library s lid t = (true,
      { s with
          libs := storeSet s.libs lid
            ⟨{ e.library with is_indexed := true, updated_at := t },
             insertAll (clearIdx e.index) (treeChunks e.library)⟩
          needs_save := true }) := by
  unfold index_library
  rw [he]

lemma db_search_none {s : Store} {q : SearchQuery}
    (he : s.libs q.library_id = none) : db_search s q = some [] := by
  unfold db_search
  rw [he]

lemma db_search_some {s : Store} {q : SearchQuery} {e : LibEntry}
    (he : s.libs q.library_id = some e) :
    db_search s q = if e.library.is_indexed then
      (searchIdx e.index q.embedding q.k).map (fun res =>
        if q.metadata_filter.isEmpty then res
        else res.filter (fun p => q.metadata_filter.all (fun kv => p.2.metadata kv.1 = some kv.2)))
    else some [] := by
  unfold db_search
  rw [he]

/-- Two stores with the same view at the queried library id produce the
same search results (search reads only `is_indexed` and the index). -/
lemma db_search_congr_view {s s' : Store} (h : ∀ lid, libView s lid = libView s' lid)
    (q : SearchQuery) : db_search s q = db_search s' q := by
  have hv := h q.library_id
  cases he : s.libs q.library_id with
  | none =>
      cases he' : s'.libs q.library_id with
      | none => rw [db_search_none he, db_search_none he']
      | some e' =>
          rw [libView, libView, he, he'] at hv
          exact absurd hv (by simp)
  | some e =>
      cases he' : s'.libs q.library_id with
      | none =>
          rw [libView, libView, he, he'] at hv
          exact absurd hv (by simp)
      | some e' =>
          rw [libView, libView, he, he'] at hv
          have hv2 : (some (e.library.is_indexed, e.library.documents, e.index) :
              Option (Bool × List Document × Index)) =
              some (e'.library.is_indexed, e'.library.documents, e'.index) := hv
          simp only [Option.some.injEq, Prod.mk.injEq] at hv2
          obtain ⟨hb, _, hi⟩ := hv2
          rw [db_search_some he, db_search_some he', hb, hi]

/-- One more `index_library` call preserves the view of the state produced
by a first `index_library` call: `clear` undoes the re-inserts and the
planes survive, so the rebuilt index is the same index. -/
lemma index_library_step_view (s : Store) (lid : String) (t : Nat) (st : Store) (t' : Nat)
    (hst : ∀ lid', libView st lid' = libView ((index_library s lid t).2) lid') :
    ∀ lid', libView ((index_library st lid t').2) lid' =
      libView ((index_library s lid t).2) lid' := by
  intro lid'
  cases hsl : s.libs lid with
  | none =>
      have hs1 : (index_library s lid t).2 = s := by
        rw [index_library_none hsl]
      have hstl : st.libs lid = none := by
        have := hst lid
        rw [hs1, libView, libView, hsl] at this
        simpa [Option.map_eq_none'] using this
      rw [index_library_none hstl]
      exact hst lid'
  | some e0 =>
      have hs1 : libView ((index_library s lid t).2) lid =
          some (true, e0.library.documents,
            insertAll (clearIdx e0.index) (treeChunks e0.library)) := by
        rw [index_library_some hsl, libView]
        simp [storeSet]
      obtain ⟨e, hstl, he⟩ : ∃ e, st.libs lid = some e ∧
          (e.library.is_indexed, e.library.documents, e.index) =
          (true, e0.library.documents,
            insertAll (clearIdx e0.index) (treeChunks e0.library)) := by
        have := hst lid
        rw [hs1, libView] at this
        exact Option.map_eq_some'.mp this
      simp only [Prod.mk.injEq] at he
      obtain ⟨hb, hd, hi⟩ := he
      by_cases hl : lid' = lid
      · subst hl
        rw [index_library_some hstl, hs1, libView]
        simp only [storeSet, if_pos rfl, if_true, Option.map_some', Option.some.injEq,
          Prod.mk.injEq]
        refine ⟨trivial, hd, ?_⟩
        rw [treeChunks_congr hd, hi, clearIdx_insertAll, clearIdx_clearIdx]
      · rw [index_library_some hstl]
        have hvv : libView
            { st with
                libs := storeSet st.libs lid
                  ⟨{ e.library with is_indexed := true, updated_at := t' },
                   insertAll (clearIdx e.index) (treeChunks e.library)⟩
                needs_save := true } lid' = libView st lid' := by
          simp [libView, storeSet, hl]
        rw [hvv]
        exact hst lid'

/-- C9: `index_library` is idempotent for search: after one successful (or
failed) call, any number of further calls with arbitrary timestamps leaves
every `db_search` result unchanged. -/
theorem c9_index_library_idempotent (s : Store) (lid : String) (t : Nat)
    (ts : List Nat) (q : SearchQuery) :
    db_search (ts.foldl (fun st t' => (index_library st lid t').2)
      ((index_library s lid t).2)) q =
    db_search ((index_library s lid t).2) q := by
  apply db_search_congr_view
  have main : ∀ (ts : List Nat) (st : Store),
      (∀ lid', libView st lid' = libView ((index_library s lid t).2) lid') →
      ∀ lid', libView (ts.foldl (fun st t' => (index_library st lid t').2) st) lid' =
        libView ((index_library s lid t).2) lid' := by
    intro ts
    induction ts with
    | nil => intro st hst; exact hst
    | cons t' rest ih =>
        intro st hst
        rw [List.foldl_cons]
        exact ih _ (index_library_step_view s lid t st t' hst)
  exact main ts _ (fun _ => rfl)

end VecDB
